import Mathlib

/-!
Shallow embedding of the GitHub organization collaboration reporter and the
cross-org membership reconciliation scripts of this repository:

  * `utils/github/org_repo_details/app.js` — per-repository collaborator
    aggregation (`assemble_repo_collaboration_details`) and report writing;
  * `utils/github/org_user_list/app.js` — the same aggregation reused with a
    member *array* in place of the member map, `find_collaborators`, and the
    invite/remove set reconciliation.

API responses are modelled as an in-memory organization snapshot: the data the
paginated octokit iterators would yield.  Fallible fetches are modelled with
`Except`; the JS `undefined`-property crash on a missing team slug is modelled
with `Option` / a `typeError` value.
-/

namespace DevExp

/-! ## Data model

A `DirectCollab` is the projection of a `repos.listCollaborators` item to the
fields the scripts read (`login`, `role_name`); a `RepoTeamRef` is the
projection of a `repos.listTeams` item (`slug`, `permission`).  A `Repo`
carries the repository metadata the scripts read together with the data its
per-repository API calls would return.  The organization team map built by
`get_organization_teams` is an association list from team slug to the team's
member logins (only `member.login` is ever read from a team member). -/

structure DirectCollab where
  login : String
  role_name : String
deriving DecidableEq, Repr

structure RepoTeamRef where
  slug : String
  permission : String
deriving DecidableEq, Repr

structure Repo where
  name : String
  created_at : String
  updated_at : String
  archived : Bool
  disabled : Bool
  direct_collaborators : List DirectCollab
  repo_teams : List RepoTeamRef
deriving DecidableEq, Repr

structure Collaborator where
  login : String
  role_name : String
  is_member : Bool
  association_type : String
deriving DecidableEq, Repr

structure RepoReport where
  repo_name : String
  created_at : String
  updated_at : String
  archived : Bool
  disabled : Bool
  has_admin : Bool
  has_member_admin : Bool
  has_admin_team : Bool
  has_linked_collaborator : Bool
  has_workflows : Bool
  has_webhooks : Bool
  collaborators : List Collaborator
deriving DecidableEq, Repr

/-- Errors that abort a run: a rejected octokit call (`apiError`, carrying the
HTTP status and endpoint) or the JS `TypeError` raised when
`organization_teams[slug]` is `undefined` and `.members` is read from it. -/
inductive RunError where
  | apiError (status : Nat) (endpoint : String)
  | typeError (message : String)
deriving DecidableEq, Repr

/-- An organization snapshot: the data the paginated listings would return
during one run, held fixed. -/
structure OrgSnapshot where
  members : List String
  organization_teams : List (String × List String)
  repositories : List Repo
deriving DecidableEq, Repr

/-! ## Aggregator (`org_repo_details/app.js` lines 31-255, reused verbatim in
`org_user_list/app.js` lines 46-219)

Both scripts contain the identical `assemble_repo_collaboration_details`
function; they differ only in what they pass for `member_map` and
`linked_member_map` (`org_repo_details` passes objects keyed on login,
`org_user_list` passes the member login *array* for both).  The embedding is
therefore parameterized by the two membership tests
`member_map.hasOwnProperty` / `linked_member_map.hasOwnProperty`. -/

/-- `get_collaborators_for_repo` (lines 31-50): each direct collaborator record
is tagged with `is_member := member_map.hasOwnProperty(login)` and
`association_type := "direct"`. -/
def get_collaborators_for_repo (member_has : String → Bool) (directs : List DirectCollab) :
    List Collaborator :=
  directs.map (fun collaborator =>
    { login := collaborator.login, role_name := collaborator.role_name,
      is_member := member_has collaborator.login, association_type := "direct" })

/-- `get_team_members_for_repo` (lines 94-119): for every team with access to
the repo, look the team up in the organization team map and emit one
collaborator per team member with the team's permission on the repo,
`is_member := true` (a literal), `association_type := "team_member"`.  When the
slug is missing from the map, `organization_teams[slug].members` raises a
`TypeError` in JS; here the result is `none`. -/
def get_team_members_for_repo (organization_teams : List (String × List String)) :
    List RepoTeamRef → Option (List Collaborator)
  | [] => some []
  | repo_team :: rest =>
    match organization_teams.lookup repo_team.slug with
    | none => none
    | some org_team_members =>
      match get_team_members_for_repo organization_teams rest with
      | none => none
      | some tail =>
        some ((org_team_members.map (fun member_login =>
          { login := member_login, role_name := repo_team.permission,
            is_member := true, association_type := "team_member" })) ++ tail)

/-- The first flag loop of `assemble_repo_collaboration_details` (lines
200-210): scans the direct collaborators, setting `has_admin` on an
admin-role record and `has_member_admin` when that record's login is also in
the member map.  Returns `(has_admin, has_member_admin)`. -/
def direct_admin_flags (member_has : String → Bool)
    (collaborators_for_repo : List Collaborator) : Bool × Bool :=
  collaborators_for_repo.foldl
    (fun acc collaborator =>
      if collaborator.role_name == "admin" then
        (true, if member_has collaborator.login then true else acc.2)
      else acc)
    (false, false)

/-- The second flag loop (lines 212-219): scans the team-derived collaborators,
setting both `has_admin` (whose value entering the loop is `has_admin0`) and
`has_admin_team` on an admin-permission record.  Returns
`(has_admin, has_admin_team)`. -/
def team_admin_flags (team_members_for_repo : List Collaborator) (has_admin0 : Bool) :
    Bool × Bool :=
  team_members_for_repo.foldl
    (fun acc team_member =>
      if team_member.role_name == "admin" then (true, true) else acc)
    (has_admin0, false)

/-- The third flag loop (lines 223-229): `has_linked_collaborator` is set when
any record of the concatenated collaborator list has its login in the linked
member map. -/
def linked_flag (linked_has : String → Bool) (collaborators : List Collaborator) : Bool :=
  collaborators.foldl
    (fun acc collaborator => if linked_has collaborator.login then true else acc)
    false

/-- The per-repository body of `assemble_repo_collaboration_details` (lines
191-250) after the two fetches: flag loops, concatenation (direct first, then
team-derived, no dedup), and the `repo_map` record.  `has_workflows` and
`has_webhooks` are hard-coded `false` (their computation is commented out). -/
def make_repo_report_core (member_has linked_has : String → Bool) (repo : Repo)
    (directs : List DirectCollab) (team_members_for_repo : List Collaborator) : RepoReport :=
  let collaborators_for_repo := get_collaborators_for_repo member_has directs
  let flags1 := direct_admin_flags member_has collaborators_for_repo
  let flags2 := team_admin_flags team_members_for_repo flags1.1
  let all_collaborators := collaborators_for_repo ++ team_members_for_repo
  { repo_name := repo.name
    created_at := repo.created_at
    updated_at := repo.updated_at
    archived := repo.archived
    disabled := repo.disabled
    has_admin := flags2.1
    has_member_admin := flags1.2
    has_admin_team := flags2.2
    has_linked_collaborator := linked_flag linked_has all_collaborators
    has_workflows := false
    has_webhooks := false
    collaborators := all_collaborators }

/-- One iteration of `assemble_repo_collaboration_details` on a fixed snapshot
(the two per-repo API calls return the snapshot's data). -/
def make_repo_report (member_has linked_has : String → Bool)
    (organization_teams : List (String × List String)) (repo : Repo) : Option RepoReport :=
  match get_team_members_for_repo organization_teams repo.repo_teams with
  | none => none
  | some team_members_for_repo =>
    some (make_repo_report_core member_has linked_has repo
      repo.direct_collaborators team_members_for_repo)

/-- `assemble_repo_collaboration_details` (lines 188-255) on a fixed snapshot:
one report per repository, in order; a `TypeError` (missing team slug)
anywhere aborts the run. -/
def assemble_repo_collaboration_details (member_has linked_has : String → Bool)
    (organization_teams : List (String × List String)) : List Repo → Option (List RepoReport)
  | [] => some []
  | repo :: rest =>
    match make_repo_report member_has linked_has organization_teams repo with
    | none => none
    | some repo_map =>
      match assemble_repo_collaboration_details member_has linked_has
          organization_teams rest with
      | none => none
      | some tail => some (repo_map :: tail)

/-- `assemble_repo_collaboration_details` with its two per-repository API calls
(`get_collaborators_for_repo`, `get_team_members_for_repo`) made explicit as
fallible fetches.  The source has no `try`/`catch` around the loop body: an
awaited rejection propagates out of the `for` loop, so the first failing fetch
becomes the result of the whole call and no later repository is processed. -/
def assemble_repo_collaboration_detailsE
    (fetch_direct : Repo → Except RunError (List DirectCollab))
    (fetch_repo_teams : Repo → Except RunError (List RepoTeamRef))
    (member_has linked_has : String → Bool)
    (organization_teams : List (String × List String)) :
    List Repo → Except RunError (List RepoReport)
  | [] => .ok []
  | repo :: rest =>
    match fetch_direct repo with
    | .error e => .error e
    | .ok directs =>
      match fetch_repo_teams repo with
      | .error e => .error e
      | .ok repo_teams =>
        match get_team_members_for_repo organization_teams repo_teams with
        | none => .error (.typeError repo.name)
        | some team_members_for_repo =>
          match assemble_repo_collaboration_detailsE fetch_direct fetch_repo_teams
              member_has linked_has organization_teams rest with
          | .error e => .error e
          | .ok tail =>
            .ok (make_repo_report_core member_has linked_has repo directs
              team_members_for_repo :: tail)

/-! ## The two entry points -/

/-- `get_linked_members` (`org_repo_details/app.js` lines 16-29) keys the
linked member map on `record[1]`; a CSV row with fewer than two columns yields
the JS property key `"undefined"`.  The aggregator only ever tests key
presence, so the key list is the faithful projection of the map. -/
def get_linked_members (records : List (List String)) : List String :=
  records.map (fun record => record.getD 1 "undefined")

/-- `get_organization_collaboration_details` (`org_repo_details/app.js` lines
257-272): the member map and linked member map are objects keyed on login, so
`hasOwnProperty` is list membership of the key. -/
def get_organization_collaboration_details (snapshot : OrgSnapshot)
    (linked_records : List (List String)) : Option (List RepoReport) :=
  let linked_member_map := get_linked_members linked_records
  assemble_repo_collaboration_details
    (fun login => snapshot.members.contains login)
    (fun login => linked_member_map.contains login)
    snapshot.organization_teams snapshot.repositories

/-- JS `Array.prototype.hasOwnProperty(key)` for an array of `n` elements: true
exactly for the index keys `"0"` … `toString (n-1)` and for `"length"`. -/
def jsArrayHasOwnProperty (arr : List String) (key : String) : Bool :=
  key == "length" || (List.range arr.length).any (fun i => Nat.repr i == key)

/-- `get_organization_collaboration_details` of `org_user_list/app.js` (lines
221-233): `get_org_members` returns an *array* of logins, which is passed both
as `member_map` and as `linked_member_map` to the aggregator, so both
`hasOwnProperty` tests are JS array own-property tests. -/
def get_organization_collaboration_details_user_list (snapshot : OrgSnapshot) :
    Option (List RepoReport) :=
  assemble_repo_collaboration_details
    (jsArrayHasOwnProperty snapshot.members)
    (jsArrayHasOwnProperty snapshot.members)
    snapshot.organization_teams snapshot.repositories

/-! ## `find_collaborators` (`org_user_list/app.js` lines 235-258) -/

/-- JS `Set.prototype.add`: insertion-ordered, no duplicates. -/
def set_add (s : List String) (x : String) : List String :=
  if s.contains x then s else s ++ [x]

/-- The body of the `find_collaborators` loop for one repository report: skip
archived repos; add the login of every collaborator record with
`is_member && role_name !== "pull"`. -/
def collect_repo_collaborators (s : List String) (repo : RepoReport) : List String :=
  if repo.archived then s
  else repo.collaborators.foldl
    (fun s collaborator =>
      if collaborator.is_member && !(collaborator.role_name == "pull") then
        set_add s collaborator.login
      else s) s

def org_collaborators_of_reports (reports : List RepoReport) : List String :=
  reports.foldl collect_repo_collaborators []

/-- `find_collaborators` on a fixed snapshot. -/
def find_collaborators (snapshot : OrgSnapshot) : Option (List String) :=
  match get_organization_collaboration_details_user_list snapshot with
  | none => none
  | some reports => some (org_collaborators_of_reports reports)

/-! ## Report writer (`org_repo_details/app.js` lines 274-289)

`JSON.stringify(details)` over the modelled projection of the report objects,
with fields in the order the source builds them, followed by the module tail:
`try` the file write, and on failure `console.error(err)` — after which the
module simply ends, so the process exits 0 whether or not the write failed. -/

def jsonEscapeChar (c : Char) : String :=
  if c == '"' then "\\\""
  else if c == '\\' then "\\\\"
  else if c == '\n' then "\\n"
  else if c == '\r' then "\\r"
  else if c == '\t' then "\\t"
  else String.singleton c

def jsonOfString (s : String) : String :=
  "\"" ++ String.join (s.toList.map jsonEscapeChar) ++ "\""

def jsonOfBool (b : Bool) : String :=
  if b then "true" else "false"

def jsonOfCollaborator (c : Collaborator) : String :=
  "\x7b" ++ "\"login\":" ++ jsonOfString c.login ++
    ",\"role_name\":" ++ jsonOfString c.role_name ++
    ",\"is_member\":" ++ jsonOfBool c.is_member ++
    ",\"association_type\":" ++ jsonOfString c.association_type ++ "\x7d"

def jsonOfRepoReport (r : RepoReport) : String :=
  "\x7b" ++ "\"repo_name\":" ++ jsonOfString r.repo_name ++
    ",\"created_at\":" ++ jsonOfString r.created_at ++
    ",\"updated_at\":" ++ jsonOfString r.updated_at ++
    ",\"archived\":" ++ jsonOfBool r.archived ++
    ",\"disabled\":" ++ jsonOfBool r.disabled ++
    ",\"has_admin\":" ++ jsonOfBool r.has_admin ++
    ",\"has_member_admin\":" ++ jsonOfBool r.has_member_admin ++
    ",\"has_admin_team\":" ++ jsonOfBool r.has_admin_team ++
    ",\"has_linked_collaborator\":" ++ jsonOfBool r.has_linked_collaborator ++
    ",\"has_workflows\":" ++ jsonOfBool r.has_workflows ++
    ",\"has_webhooks\":" ++ jsonOfBool r.has_webhooks ++
    ",\"collaborators\":[" ++
    String.intercalate "," (r.collaborators.map jsonOfCollaborator) ++ "]" ++ "\x7d"

def jsonOfDetails (details : List RepoReport) : String :=
  "[" ++ String.intercalate "," (details.map jsonOfRepoReport) ++ "]"

/-- One full reporter run over a fixed snapshot: fetch, aggregate, serialize.
`none` when the run crashes (missing team slug). -/
def reporter_json_output (snapshot : OrgSnapshot) (linked_records : List (List String)) :
    Option String :=
  match get_organization_collaboration_details snapshot linked_records with
  | none => none
  | some details => some (jsonOfDetails details)

/-- Observable outcome of the module tail: what was printed to standard error
and the process exit code. -/
structure WriteOutcome where
  stderr_log : Option String
  exit_code : Nat
deriving DecidableEq, Repr

/-- The `try { await writeFile(...) } catch (err) { console.error(err) }` tail
(lines 285-289): the catch logs the error to standard error and execution
falls off the end of the module, so the exit code is 0 in both cases. -/
def report_write_step (write_result : Except String Unit) : WriteOutcome :=
  match write_result with
  | .ok _ => { stderr_log := none, exit_code := 0 }
  | .error err => { stderr_log := some err, exit_code := 0 }

/-! ## Set reconciliation (`org_user_list/app.js`, module tail, lines 281-314) -/

/-- The `rc_only_users` constant of `org_user_list/app.js` line 291: declared
and never populated, so always the empty list. -/
def rc_only_users : List String := []

/-- Line 303: `first_org_members.filter(x => !rc_only_users.includes(x))`. -/
def bcdevops_members_excluding_rc_only_users (first_org_members : List String) : List String :=
  first_org_members.filter (fun x => !(rc_only_users.contains x))

/-- Lines 304-305: members of the first org not in the second org and not
previously removed from the second org. -/
def users_to_invite (first_org_members second_org_members members_removed_from_bcgov : List String) :
    List String :=
  let bcdevops_members_not_in_bcgov :=
    (bcdevops_members_excluding_rc_only_users first_org_members).filter
      (fun x => !(second_org_members.contains x))
  bcdevops_members_not_in_bcgov.filter (fun x => !(members_removed_from_bcgov.contains x))

/-- Lines 309-313: members of the first org who are not repo collaborators,
restricted to those already in the second org, concatenated with those
previously removed from the second org. -/
def users_to_remove (first_org_members second_org_members members_removed_from_bcgov
    org_repo_collaborators : List String) : List String :=
  let first_org_members_less_keepers :=
    (bcdevops_members_excluding_rc_only_users first_org_members).filter
      (fun x => !(org_repo_collaborators.contains x))
  let existing_bcgov_users_to_remove :=
    first_org_members_less_keepers.filter (fun x => second_org_members.contains x)
  let removed_bc_gov_users_to_remove :=
    first_org_members_less_keepers.filter (fun x => members_removed_from_bcgov.contains x)
  existing_bcgov_users_to_remove ++ removed_bc_gov_users_to_remove

/-! ## Spec-side definition for the repository-collaborator set (claim C3)

For comparison with `find_collaborators` only: this follows the claim's words,
not the source. -/

/-- Follows the claim's words: the GitHub roles counting as push or higher. -/
def claimed_push_or_higher (role : String) : Bool :=
  role == "push" || role == "maintain" || role == "admin"

/-- Follows the claim's words: the login has a collaborator record (direct or
team-derived) with role push or higher on at least one non-archived
repository. -/
def claimed_collaborator_set_member (snapshot : OrgSnapshot) (login : String) : Bool :=
  snapshot.repositories.any (fun repo =>
    !repo.archived &&
      (repo.direct_collaborators.any (fun d =>
          d.login == login && claimed_push_or_higher d.role_name) ||
        repo.repo_teams.any (fun t =>
          claimed_push_or_higher t.permission &&
            ((snapshot.organization_teams.lookup t.slug).getD []).contains login)))

/-! ## Characterizations of the flag loops -/

/-- The first flag loop computes the two existential scans over the direct
collaborator records. -/
theorem direct_admin_flags_eq (member_has : String → Bool) (l : List Collaborator) :
    direct_admin_flags member_has l =
      (l.any (fun c => c.role_name == "admin"),
        l.any (fun c => c.role_name == "admin" && member_has c.login)) := by
  suffices h : ∀ acc : Bool × Bool,
      l.foldl (fun acc collaborator =>
        if collaborator.role_name == "admin" then
          (true, if member_has collaborator.login then true else acc.2)
        else acc) acc =
      (acc.1 || l.any (fun c => c.role_name == "admin"),
        acc.2 || l.any (fun c => c.role_name == "admin" && member_has c.login)) by
    simpa [direct_admin_flags] using h (false, false)
  induction l with
  | nil => simp
  | cons c rest ih =>
    intro acc
    rw [List.foldl_cons, ih]
    by_cases h : (c.role_name == "admin") = true
    · by_cases hm : member_has c.login = true <;>
        simp [h, hm, Bool.or_assoc]
    · simp [h, Bool.or_assoc]

/-- The second flag loop computes the admin scan over the team-derived
records, or-ed into the incoming `has_admin`. -/
theorem team_admin_flags_eq (l : List Collaborator) (b : Bool) :
    team_admin_flags l b =
      (b || l.any (fun c => c.role_name == "admin"),
        l.any (fun c => c.role_name == "admin")) := by
  suffices h : ∀ acc : Bool × Bool,
      l.foldl (fun acc team_member =>
        if team_member.role_name == "admin" then (true, true) else acc) acc =
      (acc.1 || l.any (fun c => c.role_name == "admin"),
        acc.2 || l.any (fun c => c.role_name == "admin")) by
    simpa [team_admin_flags] using h (b, false)
  induction l with
  | nil => simp
  | cons c rest ih =>
    intro acc
    rw [List.foldl_cons, ih]
    by_cases h : (c.role_name == "admin") = true <;> simp [h, Bool.or_assoc]

/-- The third flag loop computes the linked-login scan over the concatenated
records. -/
theorem linked_flag_eq (linked_has : String → Bool) (l : List Collaborator) :
    linked_flag linked_has l = l.any (fun c => linked_has c.login) := by
  suffices h : ∀ b : Bool,
      l.foldl (fun acc collaborator =>
        if linked_has collaborator.login then true else acc) b =
      (b || l.any (fun c => linked_has c.login)) by
    simpa [linked_flag] using h false
  induction l with
  | nil => simp
  | cons c rest ih =>
    intro b
    rw [List.foldl_cons, ih]
    by_cases h : linked_has c.login = true <;> simp [h, Bool.or_assoc]

/-- Destructuring `make_repo_report`. -/
theorem make_repo_report_eq_some (member_has linked_has : String → Bool)
    (organization_teams : List (String × List String)) (repo : Repo) (rep : RepoReport) :
    make_repo_report member_has linked_has organization_teams repo = some rep ↔
      ∃ team_members_for_repo,
        get_team_members_for_repo organization_teams repo.repo_teams =
          some team_members_for_repo ∧
        rep = make_repo_report_core member_has linked_has repo
          repo.direct_collaborators team_members_for_repo := by
  unfold make_repo_report
  cases h : get_team_members_for_repo organization_teams repo.repo_teams <;>
    simp [h, eq_comm]

/-- Every record emitted by `get_team_members_for_repo` is one team member of
one of the repo's teams, with the team's permission, `is_member = true` and
`association_type = "team_member"`. -/
theorem mem_get_team_members_for_repo (organization_teams : List (String × List String))
    (repo_teams : List RepoTeamRef) (team_members_for_repo : List Collaborator)
    (h : get_team_members_for_repo organization_teams repo_teams =
      some team_members_for_repo) (c : Collaborator) :
    c ∈ team_members_for_repo ↔
      ∃ t ∈ repo_teams, ∃ ms, organization_teams.lookup t.slug = some ms ∧
        ∃ login ∈ ms, c = Collaborator.mk login t.permission true "team_member" := by
  induction repo_teams generalizing team_members_for_repo with
  | nil =>
    simp only [get_team_members_for_repo, Option.some.injEq] at h
    subst h
    simp
  | cons t rest ih =>
    rw [get_team_members_for_repo] at h
    cases hlk : organization_teams.lookup t.slug with
    | none => rw [hlk] at h; cases h
    | some ms =>
      rw [hlk] at h
      cases htl : get_team_members_for_repo organization_teams rest with
      | none => rw [htl] at h; cases h
      | some tail =>
        rw [htl] at h
        injection h with h
        subst h
        simp only [List.mem_append, List.mem_map, List.mem_cons, ih tail htl]
        constructor
        · rintro (⟨login, hlogin, rfl⟩ | ⟨t', ht', ms', hms', login, hlogin, rfl⟩)
          · exact ⟨t, Or.inl rfl, ms, hlk, login, hlogin, rfl⟩
          · exact ⟨t', Or.inr ht', ms', hms', login, hlogin, rfl⟩
        · rintro ⟨t', ht' | ht', ms', hms', login, hlogin, rfl⟩
          · subst ht'
            rw [hlk] at hms'
            injection hms' with hms'
            subst hms'
            exact Or.inl ⟨login, hlogin, rfl⟩
          · exact Or.inr ⟨t', ht', ms', hms', login, hlogin, rfl⟩

/-- `List.any` over a mapped list (the library lemma is restricted to
endomorphisms in this toolchain). -/
theorem any_map_eq {α β : Type} (f : α → β) (l : List α) (p : β → Bool) :
    (l.map f).any p = l.any (fun a => p (f a)) := by
  induction l with
  | nil => rfl
  | cons a t ih => simp [ih]

/-- The collaborator list of the per-repository report is the direct-mapped
list followed by the team-derived list. -/
theorem make_repo_report_core_collaborators (m lh : String → Bool) (repo : Repo)
    (directs : List DirectCollab) (tms : List Collaborator) :
    (make_repo_report_core m lh repo directs tms).collaborators =
      get_collaborators_for_repo m directs ++ tms := rfl

theorem make_repo_report_core_archived (m lh : String → Bool) (repo : Repo)
    (directs : List DirectCollab) (tms : List Collaborator) :
    (make_repo_report_core m lh repo directs tms).archived = repo.archived := rfl

/-- `has_member_admin` is the scan of the *direct* collaborator records only. -/
theorem make_repo_report_core_has_member_admin (m lh : String → Bool) (repo : Repo)
    (directs : List DirectCollab) (tms : List Collaborator) :
    (make_repo_report_core m lh repo directs tms).has_member_admin =
      directs.any (fun d => d.role_name == "admin" && m d.login) := by
  have h : (make_repo_report_core m lh repo directs tms).has_member_admin =
      (direct_admin_flags m (get_collaborators_for_repo m directs)).2 := rfl
  rw [h, direct_admin_flags_eq]
  exact any_map_eq _ _ _

/-- C1: for all source members S, destination members D, removed logins R and
repo-collaborator logins C, `users_to_remove` equals, as a set,
(S \ C) ∩ (D ∪ R); in particular with S = [A,B,C], D = [B], R = [C],
C = [A] it contains B. -/
theorem users_to_remove_set_spec :
    (∀ (S D R C : List String) (x : String),
      x ∈ users_to_remove S D R C ↔ (x ∈ S ∧ x ∉ C ∧ (x ∈ D ∨ x ∈ R))) ∧
    "B" ∈ users_to_remove ["A", "B", "C"] ["B"] ["C"] ["A"] := by
  constructor
  · intro S D R C x
    simp [users_to_remove, bcdevops_members_excluding_rc_only_users, rc_only_users,
      List.mem_filter, List.mem_append]
    tauto
  · decide

/-- C4: for all source members S, destination members D and removed logins R,
`users_to_invite` equals, as a set, S − D − R; in particular with
S = [A,B,C], D = [B], R = [C] the computed list is exactly [A]. -/
theorem users_to_invite_set_spec :
    (∀ (S D R : List String) (x : String),
      x ∈ users_to_invite S D R ↔ (x ∈ S ∧ x ∉ D ∧ x ∉ R)) ∧
    users_to_invite ["A", "B", "C"] ["B"] ["C"] = ["A"] := by
  constructor
  · intro S D R x
    simp [users_to_invite, bcdevops_members_excluding_rc_only_users, rc_only_users,
      List.mem_filter]
    tauto
  · decide

/-- C5: for every repository whose team resolution yields the team-derived
list `team_members_for_repo`, the aggregated collaborator list of its report
is the direct-collaborator list followed by the team-derived list (direct
first, then team-derived, no dedup), and its length is the sum of the two
lengths. -/
theorem repo_report_collaborators_concat (member_has linked_has : String → Bool)
    (organization_teams : List (String × List String)) (repo : Repo)
    (team_members_for_repo : List Collaborator)
    (hteams : get_team_members_for_repo organization_teams repo.repo_teams =
      some team_members_for_repo) :
    (make_repo_report member_has linked_has organization_teams repo).map
        (fun rep => rep.collaborators) =
      some (get_collaborators_for_repo member_has repo.direct_collaborators ++
        team_members_for_repo) ∧
    (make_repo_report member_has linked_has organization_teams repo).map
        (fun rep => rep.collaborators.length) =
      some (repo.direct_collaborators.length + team_members_for_repo.length) := by
  unfold make_repo_report
  rw [hteams]
  simp [make_repo_report_core_collaborators, get_collaborators_for_repo]

/-- Witness for C5: a repository with one direct collaborator and one team
with one member yields the two-element concatenated list. -/
theorem repo_report_collaborators_concat_witness :
    get_team_members_for_repo [("devs", ["carol"])]
        (Repo.mk "r1" "c" "u" false false [DirectCollab.mk "alice" "push"]
          [RepoTeamRef.mk "devs" "push"]).repo_teams =
      some [Collaborator.mk "carol" "push" true "team_member"] ∧
    ((make_repo_report (fun _ => false) (fun _ => false) [("devs", ["carol"])]
          (Repo.mk "r1" "c" "u" false false [DirectCollab.mk "alice" "push"]
            [RepoTeamRef.mk "devs" "push"])).map (fun rep => rep.collaborators) =
        some (get_collaborators_for_repo (fun _ => false)
          [DirectCollab.mk "alice" "push"] ++
          [Collaborator.mk "carol" "push" true "team_member"]) ∧
      (make_repo_report (fun _ => false) (fun _ => false) [("devs", ["carol"])]
          (Repo.mk "r1" "c" "u" false false [DirectCollab.mk "alice" "push"]
            [RepoTeamRef.mk "devs" "push"])).map
          (fun rep => rep.collaborators.length) =
        some (1 + 1)) :=
  ⟨by decide, repo_report_collaborators_concat _ _ _ _ _ (by decide)⟩

/-- C6: `has_member_admin` is true iff some collaborator of the report has
role `"admin"`, association type `"direct"`, and a login present in the
organization member map. -/
theorem has_member_admin_iff_direct_member_admin (members : List String)
    (linked_has : String → Bool) (organization_teams : List (String × List String))
    (repo : Repo) (rep : RepoReport)
    (hrep : make_repo_report (fun login => members.contains login) linked_has
      organization_teams repo = some rep) :
    rep.has_member_admin = true ↔
      ∃ c ∈ rep.collaborators, c.role_name = "admin" ∧ c.association_type = "direct" ∧
        c.login ∈ members := by
  rcases (make_repo_report_eq_some _ _ _ _ _).1 hrep with ⟨tms, hteams, rfl⟩
  rw [make_repo_report_core_has_member_admin, make_repo_report_core_collaborators]
  simp only [List.any_eq_true, Bool.and_eq_true, beq_iff_eq, List.mem_append]
  constructor
  · rintro ⟨d, hd, hrole, hmem⟩
    refine ⟨Collaborator.mk d.login d.role_name (members.contains d.login) "direct",
      Or.inl (List.mem_map_of_mem _ hd), hrole, rfl, ?_⟩
    exact List.elem_iff.1 hmem
  · rintro ⟨c, hc | hc, hrole, hassoc, hmem⟩
    · rcases List.mem_map.1 hc with ⟨d, hd, rfl⟩
      exact ⟨d, hd, hrole, List.elem_iff.2 hmem⟩
    · rcases (mem_get_team_members_for_repo _ _ _ hteams _).1 hc with
        ⟨t, ht, ms, hms, l0, hl0, rfl⟩
      simp at hassoc

/-- Witness for C6: a repository whose only admin grant is team-derived (and
whose team member is an org member) has `has_member_admin = false`. -/
theorem has_member_admin_iff_direct_member_admin_witness :
    make_repo_report (fun login => List.contains ["alice"] login) (fun _ => false)
        [("admins", ["alice"])]
        (Repo.mk "r1" "c" "u" false false [] [RepoTeamRef.mk "admins" "admin"]) =
      some (RepoReport.mk "r1" "c" "u" false false true false true false false false
        [Collaborator.mk "alice" "admin" true "team_member"]) ∧
    ((RepoReport.mk "r1" "c" "u" false false true false true false false false
        [Collaborator.mk "alice" "admin" true "team_member"]).has_member_admin = true ↔
      ∃ c ∈ (RepoReport.mk "r1" "c" "u" false false true false true false false false
        [Collaborator.mk "alice" "admin" true "team_member"]).collaborators,
        c.role_name = "admin" ∧ c.association_type = "direct" ∧ c.login ∈ ["alice"]) :=
  ⟨by decide,
    has_member_admin_iff_direct_member_admin ["alice"] (fun _ => false)
      [("admins", ["alice"])]
      (Repo.mk "r1" "c" "u" false false [] [RepoTeamRef.mk "admins" "admin"])
      (RepoReport.mk "r1" "c" "u" false false true false true false false false
        [Collaborator.mk "alice" "admin" true "team_member"]) (by decide)⟩

/-- C10: every record of a report with association type `"team_member"` has
`is_member = true` unconditionally, and every record with association type
`"direct"` has `is_member` computed by membership of its login in the org
member map. -/
theorem collaborator_is_member_invariant (members : List String)
    (linked_has : String → Bool) (organization_teams : List (String × List String))
    (repo : Repo) (rep : RepoReport)
    (hrep : make_repo_report (fun login => members.contains login) linked_has
      organization_teams repo = some rep)
    (c : Collaborator) (hc : c ∈ rep.collaborators) :
    (c.association_type = "team_member" → c.is_member = true) ∧
    (c.association_type = "direct" → c.is_member = members.contains c.login) := by
  rcases (make_repo_report_eq_some _ _ _ _ _).1 hrep with ⟨tms, hteams, rfl⟩
  rw [make_repo_report_core_collaborators] at hc
  rcases List.mem_append.1 hc with hc | hc
  · rcases List.mem_map.1 hc with ⟨d, hd, rfl⟩
    exact ⟨fun h => by simp at h, fun _ => rfl⟩
  · rcases (mem_get_team_members_for_repo _ _ _ hteams _).1 hc with
      ⟨t, ht, ms, hms, l0, hl0, rfl⟩
    exact ⟨fun _ => rfl, fun h => by simp at h⟩

/-- Witness for C10: a report with one direct record (member login) and one
team-derived record (login absent from the member map). -/
theorem collaborator_is_member_invariant_witness :
    make_repo_report (fun login => List.contains ["alice"] login) (fun _ => false)
        [("devs", ["zoe"])]
        (Repo.mk "r1" "c" "u" false false [DirectCollab.mk "alice" "push"]
          [RepoTeamRef.mk "devs" "push"]) =
      some (RepoReport.mk "r1" "c" "u" false false false false false false false false
        [Collaborator.mk "alice" "push" true "direct",
          Collaborator.mk "zoe" "push" true "team_member"]) ∧
    Collaborator.mk "zoe" "push" true "team_member" ∈
      (RepoReport.mk "r1" "c" "u" false false false false false false false false
        [Collaborator.mk "alice" "push" true "direct",
          Collaborator.mk "zoe" "push" true "team_member"]).collaborators ∧
    (((Collaborator.mk "zoe" "push" true "team_member").association_type = "team_member" →
        (Collaborator.mk "zoe" "push" true "team_member").is_member = true) ∧
      ((Collaborator.mk "zoe" "push" true "team_member").association_type = "direct" →
        (Collaborator.mk "zoe" "push" true "team_member").is_member =
          List.contains ["alice"] (Collaborator.mk "zoe" "push" true "team_member").login)) :=
  ⟨by decide, by decide,
    collaborator_is_member_invariant ["alice"] (fun _ => false) [("devs", ["zoe"])]
      (Repo.mk "r1" "c" "u" false false [DirectCollab.mk "alice" "push"]
        [RepoTeamRef.mk "devs" "push"])
      (RepoReport.mk "r1" "c" "u" false false false false false false false false
        [Collaborator.mk "alice" "push" true "direct",
          Collaborator.mk "zoe" "push" true "team_member"]) (by decide)
      (Collaborator.mk "zoe" "push" true "team_member") (by decide)⟩

/-- Counterexample to C8 as stated: a repository with zero teams but one
direct admin collaborator yields a report with a non-empty collaborator list
and true admin flags, so "zero teams *or* zero direct collaborators" does not
imply an empty list. -/
theorem repo_report_zero_teams_cex :
    (make_repo_report (fun login => List.contains ["alice"] login) (fun _ => false) []
        (Repo.mk "r0" "tc" "tu" false false [DirectCollab.mk "alice" "admin"] [])).map
      (fun rep => (rep.collaborators.length, rep.has_admin, rep.has_member_admin)) =
      some (1, true, true) := by decide

/-- C8 amended: a repository with zero teams *and* zero direct collaborators
yields a report (valid output, not an error) with an empty collaborator list
and all derived flags false. -/
theorem repo_report_empty_inputs (m lh : String → Bool)
    (organization_teams : List (String × List String))
    (name created_at updated_at : String) (archived disabled : Bool) :
    make_repo_report m lh organization_teams
      (Repo.mk name created_at updated_at archived disabled [] []) =
      some (RepoReport.mk name created_at updated_at archived disabled
        false false false false false false []) := rfl

/-- Counterexample to C7 as stated: on a write failure the error is logged to
standard error but the process still exits 0, not with an error. -/
theorem report_write_failure_exits_zero_cex :
    report_write_step (Except.error "EACCES: permission denied") =
      WriteOutcome.mk (some "EACCES: permission denied") 0 ∧
    (report_write_step (Except.error "EACCES: permission denied")).exit_code = 0 := by
  constructor <;> rfl

/-- C7 amended: a write failure is logged to standard error and the process
exits 0 anyway (the catch swallows the error); a successful write logs nothing
and also exits 0. -/
theorem report_write_step_spec :
    (∀ err : String,
      report_write_step (Except.error err) = WriteOutcome.mk (some err) 0) ∧
    report_write_step (Except.ok ()) = WriteOutcome.mk none 0 :=
  ⟨fun _ => rfl, rfl⟩

/-- C9: the reporter is deterministic — two runs over equal snapshots and
equal linked-member files produce identical serialized JSON output. -/
theorem reporter_output_deterministic (s1 s2 : OrgSnapshot)
    (linked1 linked2 : List (List String)) (hs : s1 = s2) (hl : linked1 = linked2) :
    reporter_json_output s1 linked1 = reporter_json_output s2 linked2 := by
  subst hs
  subst hl
  rfl

/-- Witness for C9 at a concrete snapshot. -/
theorem reporter_output_deterministic_witness :
    (OrgSnapshot.mk ["alice"] [("devs", ["bob"])]
        [Repo.mk "r1" "c" "u" false false [DirectCollab.mk "alice" "push"]
          [RepoTeamRef.mk "devs" "push"]] =
      OrgSnapshot.mk ["alice"] [("devs", ["bob"])]
        [Repo.mk "r1" "c" "u" false false [DirectCollab.mk "alice" "push"]
          [RepoTeamRef.mk "devs" "push"]]) ∧
    ([["x", "alice"]] = [["x", "alice"]]) ∧
    reporter_json_output
        (OrgSnapshot.mk ["alice"] [("devs", ["bob"])]
          [Repo.mk "r1" "c" "u" false false [DirectCollab.mk "alice" "push"]
            [RepoTeamRef.mk "devs" "push"]]) [["x", "alice"]] =
      reporter_json_output
        (OrgSnapshot.mk ["alice"] [("devs", ["bob"])]
          [Repo.mk "r1" "c" "u" false false [DirectCollab.mk "alice" "push"]
            [RepoTeamRef.mk "devs" "push"]]) [["x", "alice"]] :=
  ⟨rfl, rfl, reporter_output_deterministic _ _ _ _ rfl rfl⟩

/-- Counterexample to C2 as stated: with a fetch that fails (404) only for the
repository named `"bad"`, the same fetchers succeed on a run over just the
`"good"` repository, yet the run over `["bad", "good"]` is aborted by the one
failure — it returns the error, so the report contains no entry for `"good"`. -/
theorem assemble_one_repo_fetch_failure_aborts_cex :
    assemble_repo_collaboration_detailsE
        (fun repo => if repo.name == "bad" then
            Except.error (RunError.apiError 404 "GET repos collaborators")
          else Except.ok repo.direct_collaborators)
        (fun repo => Except.ok repo.repo_teams)
        (fun _ => false) (fun _ => false) []
        [Repo.mk "good" "c" "u" false false [] []] =
      Except.ok [RepoReport.mk "good" "c" "u" false false
        false false false false false false []] ∧
    assemble_repo_collaboration_detailsE
        (fun repo => if repo.name == "bad" then
            Except.error (RunError.apiError 404 "GET repos collaborators")
          else Except.ok repo.direct_collaborators)
        (fun repo => Except.ok repo.repo_teams)
        (fun _ => false) (fun _ => false) []
        [Repo.mk "bad" "c" "u" false false [] [],
          Repo.mk "good" "c" "u" false false [] []] =
      Except.error (RunError.apiError 404 "GET repos collaborators") :=
  ⟨rfl, rfl⟩

/-- C2 amended: the aggregation loop has no per-item error handling — if
fetching one repository's data fails (after any prefix of repositories that
succeeded), the error propagates as the result of the whole run and no
repository report is produced at all. -/
theorem assemble_fetch_failure_propagates
    (fetch_direct : Repo → Except RunError (List DirectCollab))
    (fetch_repo_teams : Repo → Except RunError (List RepoTeamRef))
    (member_has linked_has : String → Bool)
    (organization_teams : List (String × List String))
    (pre : List Repo) (pre_reports : List RepoReport) (repo : Repo) (rest : List Repo)
    (e : RunError)
    (hpre : assemble_repo_collaboration_detailsE fetch_direct fetch_repo_teams member_has
      linked_has organization_teams pre = Except.ok pre_reports)
    (hfail : fetch_direct repo = Except.error e) :
    assemble_repo_collaboration_detailsE fetch_direct fetch_repo_teams member_has
      linked_has organization_teams (pre ++ repo :: rest) = Except.error e := by
  induction pre generalizing pre_reports with
  | nil =>
    simp only [List.nil_append, assemble_repo_collaboration_detailsE, hfail]
  | cons p ps ih =>
    simp only [assemble_repo_collaboration_detailsE] at hpre
    split at hpre
    · exact Except.noConfusion hpre
    · next directs hd =>
      split at hpre
      · exact Except.noConfusion hpre
      · next repo_teams ht =>
        split at hpre
        · exact Except.noConfusion hpre
        · next tms htm =>
          split at hpre
          · exact Except.noConfusion hpre
          · next tail hrec =>
            simp only [List.cons_append, assemble_repo_collaboration_detailsE, hd, ht,
              htm, List.append_eq, ih tail hrec]

/-- Witness for the amended C2: a failing fetch at the head of a two-element
repository list. -/
theorem assemble_fetch_failure_propagates_witness :
    assemble_repo_collaboration_detailsE
        (fun _ => Except.error (RunError.apiError 404 "GET repos collaborators"))
        (fun repo => Except.ok repo.repo_teams) (fun _ => false) (fun _ => false)
        [] [] =
      Except.ok [] ∧
    (fun _ : Repo => Except.error (RunError.apiError 404 "GET repos collaborators")
        : Repo → Except RunError (List DirectCollab))
      (Repo.mk "bad" "c" "u" false false [] []) =
      Except.error (RunError.apiError 404 "GET repos collaborators") ∧
    assemble_repo_collaboration_detailsE
        (fun _ => Except.error (RunError.apiError 404 "GET repos collaborators"))
        (fun repo => Except.ok repo.repo_teams) (fun _ => false) (fun _ => false)
        []
        ([] ++ Repo.mk "bad" "c" "u" false false [] [] ::
          [Repo.mk "good" "c" "u" false false [] []]) =
      Except.error (RunError.apiError 404 "GET repos collaborators") :=
  ⟨rfl, rfl,
    assemble_fetch_failure_propagates
      (fun _ => Except.error (RunError.apiError 404 "GET repos collaborators"))
      (fun repo => Except.ok repo.repo_teams) (fun _ => false) (fun _ => false)
      [] [] [] (Repo.mk "bad" "c" "u" false false [] [])
      [Repo.mk "good" "c" "u" false false [] []]
      (RunError.apiError 404 "GET repos collaborators") rfl rfl⟩

/-- Membership after a JS `Set.add`. -/
theorem mem_set_add (s : List String) (y x : String) :
    x ∈ set_add s y ↔ x ∈ s ∨ y = x := by
  unfold set_add
  by_cases h : s.contains y = true
  · rw [if_pos h]
    have hy : y ∈ s := List.elem_iff.1 h
    constructor
    · exact Or.inl
    · rintro (hx | rfl)
      · exact hx
      · exact hy
  · rw [if_neg h]
    simp [List.mem_append, eq_comm]

/-- Membership after the inner `find_collaborators` loop over one report's
collaborator list. -/
theorem mem_collect_inner (collabs : List Collaborator) (s0 : List String) (x : String) :
    x ∈ collabs.foldl (fun s collaborator =>
        if collaborator.is_member && !(collaborator.role_name == "pull") then
          set_add s collaborator.login
        else s) s0 ↔
      x ∈ s0 ∨ ∃ c ∈ collabs, c.is_member = true ∧ ¬c.role_name = "pull" ∧
        c.login = x := by
  induction collabs generalizing s0 with
  | nil => simp
  | cons c rest ih =>
    rw [List.foldl_cons, ih]
    by_cases h1 : c.is_member = true <;> by_cases h2 : c.role_name = "pull" <;>
      simp [h1, h2, mem_set_add, or_assoc]

/-- Membership after the outer `find_collaborators` loop over the reports. -/
theorem mem_org_collaborators_foldl (reports : List RepoReport) (s0 : List String)
    (x : String) :
    x ∈ reports.foldl collect_repo_collaborators s0 ↔
      x ∈ s0 ∨ ∃ rep ∈ reports, rep.archived = false ∧
        ∃ c ∈ rep.collaborators, c.is_member = true ∧ ¬c.role_name = "pull" ∧
          c.login = x := by
  induction reports generalizing s0 with
  | nil => simp
  | cons rep rest ih =>
    rw [List.foldl_cons, ih]
    unfold collect_repo_collaborators
    cases harch : rep.archived with
    | true => simp [harch]
    | false =>
      have hneg : ¬(false = true) := by simp
      rw [if_neg hneg, mem_collect_inner]
      simp [harch, or_assoc]

/-- Transfer of a per-report predicate through a successful aggregation run:
an existential over the produced reports is an existential over the input
repositories. -/
theorem assemble_exists_report_iff (member_has linked_has : String → Bool)
    (organization_teams : List (String × List String)) (P : RepoReport → Prop)
    (Q : Repo → Prop)
    (hPQ : ∀ repo rep, make_repo_report member_has linked_has organization_teams repo =
      some rep → (P rep ↔ Q repo))
    (repos : List Repo) :
    ∀ reports : List RepoReport,
      assemble_repo_collaboration_details member_has linked_has organization_teams
        repos = some reports →
      ((∃ rep ∈ reports, P rep) ↔ ∃ repo ∈ repos, Q repo) := by
  induction repos with
  | nil =>
    intro reports h
    simp only [assemble_repo_collaboration_details, Option.some.injEq] at h
    subst h
    simp
  | cons repo rest ih =>
    intro reports h
    simp only [assemble_repo_collaboration_details] at h
    split at h
    · exact Option.noConfusion h
    · next rep0 hrep0 =>
      split at h
      · exact Option.noConfusion h
      · next tail htail =>
        injection h with h
        subst h
        have h1 : P rep0 ↔ Q repo := hPQ repo rep0 hrep0
        have h2 : (∃ rep ∈ tail, P rep) ↔ ∃ r ∈ rest, Q r := ih tail htail
        simp only [List.mem_cons]
        constructor
        · rintro ⟨rep, rfl | hmem, hP⟩
          · exact ⟨repo, Or.inl rfl, h1.1 hP⟩
          · rcases h2.1 ⟨rep, hmem, hP⟩ with ⟨r, hr, hQ⟩
            exact ⟨r, Or.inr hr, hQ⟩
        · rintro ⟨r, rfl | hr, hQ⟩
          · exact ⟨rep0, Or.inl rfl, h1.2 hQ⟩
          · rcases h2.2 ⟨r, hr, hQ⟩ with ⟨rep, hrep, hP⟩
            exact ⟨rep, Or.inr hrep, hP⟩

/-- The `find_collaborators` per-report condition, pushed back to the
snapshot: a report contributes `login` iff its repository is non-archived and
either a direct collaborator record for `login` passes the membership test and
is not `"pull"`, or a team grants `login` access with permission other than
`"pull"`. -/
theorem repo_collab_condition_iff (m lh : String → Bool)
    (ot : List (String × List String)) (repo : Repo) (rep : RepoReport)
    (hrep : make_repo_report m lh ot repo = some rep) (login : String) :
    (rep.archived = false ∧ ∃ c ∈ rep.collaborators,
        c.is_member = true ∧ ¬c.role_name = "pull" ∧ c.login = login) ↔
      (repo.archived = false ∧
        ((m login = true ∧ ∃ d ∈ repo.direct_collaborators,
            d.login = login ∧ ¬d.role_name = "pull") ∨
          (∃ t ∈ repo.repo_teams, ¬t.permission = "pull" ∧
            ∃ ms, ot.lookup t.slug = some ms ∧ login ∈ ms))) := by
  rcases (make_repo_report_eq_some _ _ _ _ _).1 hrep with ⟨tms, hteams, rfl⟩
  rw [make_repo_report_core_archived, make_repo_report_core_collaborators]
  refine and_congr_right fun _ => ?_
  constructor
  · rintro ⟨c, hc, hmem, hrole, hlogin⟩
    rcases List.mem_append.1 hc with hc | hc
    · rcases List.mem_map.1 hc with ⟨d, hd, rfl⟩
      refine Or.inl ⟨?_, d, hd, hlogin, hrole⟩
      rw [← hlogin]
      exact hmem
    · rcases (mem_get_team_members_for_repo _ _ _ hteams _).1 hc with
        ⟨t, ht, ms, hms, l0, hl0, rfl⟩
      refine Or.inr ⟨t, ht, hrole, ms, hms, ?_⟩
      rw [← hlogin]
      exact hl0
  · rintro (⟨hm, d, hd, hdlogin, hdrole⟩ | ⟨t, ht, htperm, ms, hms, hlogin_ms⟩)
    · refine ⟨Collaborator.mk d.login d.role_name (m d.login) "direct",
        List.mem_append_left _ (List.mem_map_of_mem _ hd), ?_, hdrole, hdlogin⟩
      rw [hdlogin]
      exact hm
    · exact ⟨Collaborator.mk login t.permission true "team_member",
        List.mem_append_right _ ((mem_get_team_members_for_repo _ _ _ hteams _).2
          ⟨t, ht, ms, hms, login, hlogin_ms, rfl⟩), rfl, htperm, rfl⟩

/-- Counterexample to C3 as stated: in a snapshot where `"alice"` has a direct
push-role collaborator record on a non-archived repository (so the claimed set
membership holds), the computed collaborator set is empty — because the member
login array is passed where a login-keyed map is expected, the JS
`hasOwnProperty("alice")` test against the array is false and the direct
record's `is_member` flag excludes it. -/
theorem find_collaborators_push_collaborator_cex :
    claimed_collaborator_set_member
        (OrgSnapshot.mk ["alice"] []
          [Repo.mk "r1" "c" "u" false false [DirectCollab.mk "alice" "push"] []])
        "alice" = true ∧
    find_collaborators
        (OrgSnapshot.mk ["alice"] []
          [Repo.mk "r1" "c" "u" false false [DirectCollab.mk "alice" "push"] []]) =
      some [] := by
  constructor <;> decide

/-- C3 amended: a login is in the computed collaborator set iff some
non-archived repository either has a direct collaborator record for it whose
role is not `"pull"` *and* the login passes the JS array own-property test
against the member login array (true only for `"length"` or a decimal index
string, so for no ordinary login), or — the effective case — some team with
permission other than `"pull"` on the repository has the login among its
members. -/
theorem find_collaborators_charn (snapshot : OrgSnapshot) (out : List String)
    (h : find_collaborators snapshot = some out) (login : String) :
    login ∈ out ↔
      ∃ repo ∈ snapshot.repositories, repo.archived = false ∧
        ((jsArrayHasOwnProperty snapshot.members login = true ∧
            ∃ d ∈ repo.direct_collaborators, d.login = login ∧ ¬d.role_name = "pull") ∨
          (∃ t ∈ repo.repo_teams, ¬t.permission = "pull" ∧
            ∃ ms, snapshot.organization_teams.lookup t.slug = some ms ∧
              login ∈ ms)) := by
  unfold find_collaborators at h
  split at h
  · exact Option.noConfusion h
  · next reports hdet =>
    injection h with h
    subst h
    unfold org_collaborators_of_reports
    rw [mem_org_collaborators_foldl]
    simp only [List.not_mem_nil, false_or]
    unfold get_organization_collaboration_details_user_list at hdet
    exact assemble_exists_report_iff _ _ _ _ _
      (fun repo rep hrep => repo_collab_condition_iff _ _ _ _ _ hrep login)
      snapshot.repositories reports hdet

/-- Witness for the amended C3: a team-granted login is in the set. -/
theorem find_collaborators_charn_witness :
    find_collaborators
        (OrgSnapshot.mk ["alice"] [("devs", ["bob"])]
          [Repo.mk "r1" "c" "u" false false [] [RepoTeamRef.mk "devs" "push"]]) =
      some ["bob"] ∧
    ("bob" ∈ ["bob"] ↔
      ∃ repo ∈ [Repo.mk "r1" "c" "u" false false [] [RepoTeamRef.mk "devs" "push"]],
        repo.archived = false ∧
        ((jsArrayHasOwnProperty ["alice"] "bob" = true ∧
            ∃ d ∈ repo.direct_collaborators, d.login = "bob" ∧ ¬d.role_name = "pull") ∨
          (∃ t ∈ repo.repo_teams, ¬t.permission = "pull" ∧
            ∃ ms, List.lookup t.slug [("devs", ["bob"])] = some ms ∧
              "bob" ∈ ms))) :=
  ⟨by decide,
    find_collaborators_charn
      (OrgSnapshot.mk ["alice"] [("devs", ["bob"])]
        [Repo.mk "r1" "c" "u" false false [] [RepoTeamRef.mk "devs" "push"]])
      ["bob"] (by decide) "bob"⟩

end DevExp
